import Mathlib

/-!
# Verification of the list-handler backend

Shallow embedding of the ownership-scoped CRUD core of the repository:
the route handlers of `app/routers/lists.py`, `app/routers/items.py` and
`app/routers/auth.py`, over the persisted rows of `app/models/list.py`
(tables `users`, `lists`, `list_items`).

The database is modelled as lists of rows; SQLAlchemy's
`query(...).filter(...).first()` becomes `List.find?`, `.all()` becomes
`List.filter`, mutation of the object returned by `.first()` becomes an
update of the first matching row, and `db.delete` of that object becomes
removal of the first matching row.  Timestamp columns (`created_at`,
`updated_at`) are server-managed and inspected by no handler, so they are
omitted.  Each handler is one pure function: its single transaction
(`db.commit()` once per request) is one state transition.
-/

namespace ListHandler

/-- A row of the `users` table (`app/models/user.py`; the model file is not
in the snapshot, its columns are fixed by the code that uses them:
`id`, `username`, `email`, `hashed_password`, `is_active`). -/
structure UserRec where
  id : Nat
  username : String
  email : String
  hashed_password : String
  is_active : Bool
  deriving Repr, DecidableEq

/-- A row of the `lists` table (`app/models/list.py`, class `List`). -/
structure ListRec where
  id : Nat
  user_id : Nat
  name : String
  description : Option String
  deriving Repr, DecidableEq

/-- A row of the `list_items` table (`app/models/list.py`, class
`ListItem`); `is_completed` is a Python `int` column, default 0. -/
structure ItemRec where
  id : Nat
  list_id : Nat
  content : String
  is_completed : Int
  deriving Repr, DecidableEq

/-- The persistent store: the three tables. -/
structure DB where
  users : List UserRec
  lists : List ListRec
  items : List ItemRec
  deriving Repr, DecidableEq

/-- `fastapi.HTTPException(status_code, detail)`. -/
structure HTTPException where
  status_code : Nat
  detail : String
  deriving Repr, DecidableEq

/-- Request body of `ListCreate` (`app/schemas/list.py`). -/
structure ListCreate where
  name : String
  description : Option String
  deriving Repr, DecidableEq

/-- Request body of `ListUpdate` (`app/schemas/list.py`): both fields
optional. -/
structure ListUpdate where
  name : Option String
  description : Option String
  deriving Repr, DecidableEq

/-- Request body of `ListItemCreate` (`app/schemas/list.py`):
`content` required, `is_completed : int` defaulting to 0, with no
range constraint on the integer. -/
structure ListItemCreate where
  content : String
  is_completed : Int := 0
  deriving Repr, DecidableEq

/-- Request body of `ListItemUpdate` (`app/schemas/list.py`): both fields
optional, no range constraint on `is_completed`. -/
structure ListItemUpdate where
  content : Option String
  is_completed : Option Int
  deriving Repr, DecidableEq

/-- Request body of `UserRegister` (`app/schemas/auth.py`). -/
structure UserRegister where
  username : String
  email : String
  password : String
  deriving Repr, DecidableEq

/-- Response model `UserResponse` (`app/schemas/auth.py`): only
`id`, `username`, `email`, `is_active` — no password-hash field. -/
structure UserResponse where
  id : Nat
  username : String
  email : String
  is_active : Bool
  deriving Repr, DecidableEq

/-- Response model `Token` (`app/schemas/auth.py`). -/
structure Token where
  access_token : String
  token_type : String
  deriving Repr, DecidableEq

/-- Replace the first element satisfying `p` by its image under `f`
(SQLAlchemy: mutate the object returned by `.first()`). -/
def updateFirst (p : α → Bool) (f : α → α) : List α → List α
  | [] => []
  | x :: xs => if p x then f x :: xs else x :: updateFirst p f xs

/-- Remove the first element satisfying `p`
(SQLAlchemy: `db.delete` the object returned by `.first()`). -/
def eraseFirst (p : α → Bool) : List α → List α
  | [] => []
  | x :: xs => if p x then xs else x :: eraseFirst p xs

/-- A fresh primary key for a new row: autoincrement, modelled as one more
than the largest id in the table. -/
def freshId (ids : List Nat) : Nat := ids.foldr max 0 + 1

/-! ## `app/routers/lists.py` -/

/-- `verify_user_access` (lists.py:18-24): 403 when the path `user_id`
differs from the authenticated user's id. -/
def verify_user_access (current_user : UserRec) (user_id : Nat) :
    Except HTTPException Unit :=
  if current_user.id ≠ user_id then
    .error ⟨403, "Not enough permissions to access this resource"⟩
  else
    .ok ()

/-- `get_user_lists` (lists.py:37-51): all lists whose `user_id` equals the
path `user_id`, after the access check. -/
def get_user_lists (user_id : Nat) (current_user : UserRec) (db : DB) :
    Except HTTPException (List ListRec) :=
  match verify_user_access current_user user_id with
  | .error e => .error e
  | .ok _ => .ok (db.lists.filter (fun l => l.user_id == user_id))

/-- `create_list` (lists.py:65-89): insert a list owned by the path
`user_id`, after the access check. -/
def create_list (user_id : Nat) (list_data : ListCreate)
    (current_user : UserRec) (db : DB) :
    Except HTTPException (ListRec × DB) :=
  match verify_user_access current_user user_id with
  | .error e => .error e
  | .ok _ =>
    let db_list : ListRec :=
      { id := freshId (db.lists.map (·.id))
        user_id := user_id
        name := list_data.name
        description := list_data.description }
    .ok (db_list, { db with lists := db.lists ++ [db_list] })

/-- `get_list` (lists.py:103-129): fused lookup by `(id, user_id)`; 404 when
absent. -/
def get_list (user_id list_id : Nat) (current_user : UserRec) (db : DB) :
    Except HTTPException ListRec :=
  match verify_user_access current_user user_id with
  | .error e => .error e
  | .ok _ =>
    match db.lists.find? (fun l => l.id == list_id && l.user_id == user_id) with
    | none => .error ⟨404, "List not found"⟩
    | some db_list => .ok db_list

/-- The partial-update step of `update_list` (lists.py:172-176): each field
is written only when the request supplied it. -/
def applyListUpdate (list_data : ListUpdate) (l : ListRec) : ListRec :=
  { l with
    name := match list_data.name with
      | some n => n
      | none => l.name
    description := match list_data.description with
      | some d => some d
      | none => l.description }

/-- `update_list` (lists.py:143-181): fused lookup, then partial update of
the found row. -/
def update_list (user_id list_id : Nat) (list_data : ListUpdate)
    (current_user : UserRec) (db : DB) :
    Except HTTPException (ListRec × DB) :=
  match verify_user_access current_user user_id with
  | .error e => .error e
  | .ok _ =>
    match db.lists.find? (fun l => l.id == list_id && l.user_id == user_id) with
    | none => .error ⟨404, "List not found"⟩
    | some db_list =>
        let lists := updateFirst (fun l => l.id == list_id && l.user_id == user_id)
          (applyListUpdate list_data) db.lists
        .ok (applyListUpdate list_data db_list, { db with lists := lists })

/-- `delete_list` (lists.py:195-224): fused lookup, then delete the row;
the `cascade="all, delete-orphan"` relationship of `List.items`
(app/models/list.py:19) deletes every item of that list in the same
commit. -/
def delete_list (user_id list_id : Nat) (current_user : UserRec) (db : DB) :
    Except HTTPException (Unit × DB) :=
  match verify_user_access current_user user_id with
  | .error e => .error e
  | .ok _ =>
    match db.lists.find? (fun l => l.id == list_id && l.user_id == user_id) with
    | none => .error ⟨404, "List not found"⟩
    | some db_list =>
        let lists := eraseFirst (fun l => l.id == list_id && l.user_id == user_id)
          db.lists
        let items := db.items.filter (fun i => !(i.list_id == db_list.id))
        .ok ((), { db with lists := lists, items := items })

/-! ## `app/routers/items.py` -/

/-- `verify_list_access` (items.py:13-26): fused lookup of the list by
`(id, current_user.id)`; 404 when absent. -/
def verify_list_access (current_user : UserRec) (list_id : Nat) (db : DB) :
    Except HTTPException ListRec :=
  match db.lists.find? (fun l => l.id == list_id && l.user_id == current_user.id) with
  | none => .error ⟨404, "List not found"⟩
  | some db_list => .ok db_list

/-- `get_list_items` (items.py:39-53): all items of the list, after the
ownership check. -/
def get_list_items (list_id : Nat) (current_user : UserRec) (db : DB) :
    Except HTTPException (List ItemRec) :=
  match verify_list_access current_user list_id db with
  | .error e => .error e
  | .ok _ => .ok (db.items.filter (fun i => i.list_id == list_id))

/-- `create_list_item` (items.py:67-91): insert an item with the
caller-supplied `content` and `is_completed` (stored as given, no range
check), after the ownership check. -/
def create_list_item (list_id : Nat) (item_data : ListItemCreate)
    (current_user : UserRec) (db : DB) :
    Except HTTPException (ItemRec × DB) :=
  match verify_list_access current_user list_id db with
  | .error e => .error e
  | .ok _ =>
    let db_item : ItemRec :=
      { id := freshId (db.items.map (·.id))
        list_id := list_id
        content := item_data.content
        is_completed := item_data.is_completed }
    .ok (db_item, { db with items := db.items ++ [db_item] })

/-- The partial-update step of `update_list_item` (items.py:134-138). -/
def applyItemUpdate (item_data : ListItemUpdate) (i : ItemRec) : ItemRec :=
  { i with
    content := match item_data.content with
      | some c => c
      | none => i.content
    is_completed := match item_data.is_completed with
      | some b => b
      | none => i.is_completed }

/-- `update_list_item` (items.py:104-143): ownership check, fused item
lookup by `(id, list_id)`, then partial update of the found row. -/
def update_list_item (list_id item_id : Nat) (item_data : ListItemUpdate)
    (current_user : UserRec) (db : DB) :
    Except HTTPException (ItemRec × DB) :=
  match verify_list_access current_user list_id db with
  | .error e => .error e
  | .ok _ =>
    match db.items.find? (fun i => i.id == item_id && i.list_id == list_id) with
    | none => .error ⟨404, "Item not found"⟩
    | some db_item =>
        let items := updateFirst (fun i => i.id == item_id && i.list_id == list_id)
          (applyItemUpdate item_data) db.items
        .ok (applyItemUpdate item_data db_item, { db with items := items })

/-- `delete_list_item` (items.py:156-185): ownership check, fused item
lookup, then delete the row. -/
def delete_list_item (list_id item_id : Nat) (current_user : UserRec)
    (db : DB) : Except HTTPException (Unit × DB) :=
  match verify_list_access current_user list_id db with
  | .error e => .error e
  | .ok _ =>
    match db.items.find? (fun i => i.id == item_id && i.list_id == list_id) with
    | none => .error ⟨404, "Item not found"⟩
    | some _ =>
        let items := eraseFirst (fun i => i.id == item_id && i.list_id == list_id)
          db.items
        .ok ((), { db with items := items })

/-- The flip of `toggle_item_completion` (items.py:227):
`1 if is_completed == 0 else 0`. -/
def toggleCompleted (x : Int) : Int := if x == 0 then 1 else 0

/-- `toggle_item_completion` (items.py:198-232): ownership check, fused
item lookup, then flip `is_completed` on the found row. -/
def toggle_item_completion (list_id item_id : Nat) (current_user : UserRec)
    (db : DB) : Except HTTPException (ItemRec × DB) :=
  match verify_list_access current_user list_id db with
  | .error e => .error e
  | .ok _ =>
    match db.items.find? (fun i => i.id == item_id && i.list_id == list_id) with
    | none => .error ⟨404, "Item not found"⟩
    | some db_item =>
        let items := updateFirst (fun i => i.id == item_id && i.list_id == list_id)
          (fun i => { i with is_completed := toggleCompleted i.is_completed })
          db.items
        .ok ({ db_item with is_completed := toggleCompleted db_item.is_completed },
          { db with items := items })

/-! ## `app/routers/auth.py` -/

/-- The `response_model=UserResponse` serialization of a user row: only
`id`, `username`, `email`, `is_active` leave the server. -/
def toUserResponse (u : UserRec) : UserResponse :=
  { id := u.id, username := u.username, email := u.email,
    is_active := u.is_active }

/-- `register` (auth.py:31-66): reject a duplicate username, then a
duplicate email, otherwise insert the new user with the hashed password.
`get_password_hash` lives in `app/auth.py`, absent from the snapshot, so
the hashing function is a parameter; the `is_active` column default is
`true` (the spec: accounts are created active, `active` changes only
administratively). -/
def register (hashPw : String → String) (user_data : UserRegister)
    (db : DB) : Except HTTPException (UserResponse × DB) :=
  match db.users.find? (fun u => u.username == user_data.username) with
  | some _ => .error ⟨400, "Username already registered"⟩
  | none =>
    match db.users.find? (fun u => u.email == user_data.email) with
    | some _ => .error ⟨400, "Email already registered"⟩
    | none =>
      let db_user : UserRec :=
        { id := freshId (db.users.map (·.id))
          username := user_data.username
          email := user_data.email
          hashed_password := hashPw user_data.password
          is_active := true }
      .ok (toUserResponse db_user, { db with users := db.users ++ [db_user] })

/-- Modelled from the spec: `authenticate_user` lives in `app/auth.py`,
which is not in the snapshot.  Per spec §4.3: look the user up by
username; return failure unless password verification succeeds, without
distinguishing a missing user from a wrong password; the `active` flag is
not consulted here (its check happens post-credential-check, in `login`).
Password verification is a parameter. -/
def authenticate_user (verifyPw : String → String → Bool) (db : DB)
    (username password : String) : Option UserRec :=
  match db.users.find? (fun u => u.username == username) with
  | none => none
  | some user => if verifyPw password user.hashed_password then some user else none

/-- `login` (auth.py:79-106): 401 "Incorrect username or password" when
authentication fails, 400 "Inactive user" when the matched user is
inactive, otherwise a bearer token for the username.  Token creation
(`create_access_token`, in the absent `app/auth.py`) is a parameter. -/
def login (verifyPw : String → String → Bool) (mkToken : String → String)
    (username password : String) (db : DB) : Except HTTPException Token :=
  match authenticate_user verifyPw db username password with
  | none => .error ⟨401, "Incorrect username or password"⟩
  | some user =>
    if !user.is_active then .error ⟨400, "Inactive user"⟩
    else .ok { access_token := mkToken user.username, token_type := "bearer" }

/-! ## The protected resource operations as one step relation

Every list/item route, with its path parameters and body, so that
properties quantifying over "every operation invoked by a caller" are one
statement.  A response value per route shape. -/

/-- What a successful route handler returns. -/
inductive Output where
  | listsOut (ls : List ListRec)
  | listOut (l : ListRec)
  | itemsOut (its : List ItemRec)
  | itemOut (i : ItemRec)
  | noContent
  deriving Repr, DecidableEq

/-- One protected route invocation: the route with its path parameters and
request body (`user_id` appears only on the lists routes, whose path is
`/users/\x7buser_id\x7d/lists`; the items routes are under `/users/me`). -/
inductive Op where
  | listLists (user_id : Nat)
  | createList (user_id : Nat) (d : ListCreate)
  | getList (user_id list_id : Nat)
  | updateList (user_id list_id : Nat) (d : ListUpdate)
  | deleteList (user_id list_id : Nat)
  | listItems (list_id : Nat)
  | createItem (list_id : Nat) (d : ListItemCreate)
  | updateItem (list_id item_id : Nat) (d : ListItemUpdate)
  | deleteItem (list_id item_id : Nat)
  | toggleItem (list_id item_id : Nat)
  deriving Repr, DecidableEq

/-- Run one route invocation as the authenticated `caller`: the response
(or error) together with the store it leaves behind (unchanged when the
handler raised before its commit). -/
def exec (caller : UserRec) (op : Op) (db : DB) :
    Except HTTPException Output × DB :=
  match op with
  | .listLists uid =>
      match get_user_lists uid caller db with
      | .ok ls => (.ok (.listsOut ls), db)
      | .error e => (.error e, db)
  | .createList uid d =>
      match create_list uid d caller db with
      | .ok (l, db') => (.ok (.listOut l), db')
      | .error e => (.error e, db)
  | .getList uid lid =>
      match get_list uid lid caller db with
      | .ok l => (.ok (.listOut l), db)
      | .error e => (.error e, db)
  | .updateList uid lid d =>
      match update_list uid lid d caller db with
      | .ok (l, db') => (.ok (.listOut l), db')
      | .error e => (.error e, db)
  | .deleteList uid lid =>
      match delete_list uid lid caller db with
      | .ok (_, db') => (.ok .noContent, db')
      | .error e => (.error e, db)
  | .listItems lid =>
      match get_list_items lid caller db with
      | .ok its => (.ok (.itemsOut its), db)
      | .error e => (.error e, db)
  | .createItem lid d =>
      match create_list_item lid d caller db with
      | .ok (i, db') => (.ok (.itemOut i), db')
      | .error e => (.error e, db)
  | .updateItem lid iid d =>
      match update_list_item lid iid d caller db with
      | .ok (i, db') => (.ok (.itemOut i), db')
      | .error e => (.error e, db)
  | .deleteItem lid iid =>
      match delete_list_item lid iid caller db with
      | .ok (_, db') => (.ok .noContent, db')
      | .error e => (.error e, db)
  | .toggleItem lid iid =>
      match toggle_item_completion lid iid caller db with
      | .ok (i, db') => (.ok (.itemOut i), db')
      | .error e => (.error e, db)

/-! ## Ownership -/

/-- An item belongs to user `uid` when some list of the table carries its
`list_id` and is owned by `uid`. -/
def ownsItem (lists : List ListRec) (uid : Nat) (i : ItemRec) : Bool :=
  lists.any (fun l => l.id == i.list_id && l.user_id == uid)

/-- The lists of the store owned by `uid`. -/
def listsOf (db : DB) (uid : Nat) : List ListRec :=
  db.lists.filter (fun l => l.user_id == uid)

/-- The items of the store owned by `uid`. -/
def itemsOf (db : DB) (uid : Nat) : List ItemRec :=
  db.items.filter (ownsItem db.lists uid)

/-- Whether a response carries any record owned by `uid` (item ownership
read against the table `lists`). -/
def outputTouches (lists : List ListRec) (uid : Nat) : Output → Bool
  | .listsOut ls => ls.any (fun l => l.user_id == uid)
  | .listOut l => l.user_id == uid
  | .itemsOut its => its.any (ownsItem lists uid)
  | .itemOut i => ownsItem lists uid i
  | .noContent => false

/-- Whether the response of one route invocation carries any record owned
by `other` (false as well when the invocation failed). -/
def execTouches (caller : UserRec) (other : Nat) (op : Op) (db : DB) : Bool :=
  match exec caller op db with
  | (.ok out, _) => outputTouches db.lists other out
  | (.error _, _) => false

/-- The invariant `completed` of every item lies in 0/1. -/
def ItemsInRange (db : DB) : Prop :=
  ∀ i ∈ db.items, i.is_completed = 0 ∨ i.is_completed = 1

instance : DecidablePred ItemsInRange := fun db => by
  unfold ItemsInRange
  infer_instance

/-- Well-formed store: primary keys of the `lists` table are distinct
(`id` is `primary_key` in `app/models/list.py`). -/
def WF (db : DB) : Prop := (db.lists.map (·.id)).Nodup

instance : DecidablePred WF := fun db => by
  unfold WF
  infer_instance

/-- `register` as one request against the store: the response together
with the store it leaves behind (unchanged when the handler raised before
its commit). -/
def registerStep (hashPw : String → String) (user_data : UserRegister)
    (db : DB) : Except HTTPException UserResponse × DB :=
  match register hashPw user_data db with
  | .ok (r, db') => (.ok r, db')
  | .error e => (.error e, db)

/-! ## Concrete sample stores (used to instantiate the theorems) -/

/-- Sample user of id 1. -/
def userA : UserRec :=
  { id := 1, username := "alice", email := "alice@example.com",
    hashed_password := "h:pw1", is_active := true }

/-- Sample user of id 2. -/
def userB : UserRec :=
  { id := 2, username := "bob", email := "bob@example.com",
    hashed_password := "h:pw2", is_active := true }

/-- Sample inactive user of id 3. -/
def userC : UserRec :=
  { id := 3, username := "carl", email := "carl@example.com",
    hashed_password := "h:pw3", is_active := false }

/-- A store where user 1 owns list 10 (item 100) and user 2 owns list 20
(item 200). -/
def sampleDB : DB :=
  { users := [userA, userB, userC]
    lists := [⟨10, 1, "groceries", none⟩, ⟨20, 2, "chores", none⟩]
    items := [⟨100, 10, "milk", 0⟩, ⟨200, 20, "sweep", 1⟩] }

/-- A store holding an item whose `is_completed` is already outside 0/1
(reachable: see the creation of such an item in the theorems below). -/
def outOfRangeDB : DB :=
  { users := [userA]
    lists := [⟨10, 1, "groceries", none⟩]
    items := [⟨100, 10, "milk", 2⟩] }

/-- A sample password-verification function matching `sampleHash`. -/
def sampleVerify (password hash : String) : Bool := hash == "h:" ++ password

/-- A sample password-hashing function. -/
def sampleHash (password : String) : String := "h:" ++ password

/-- A sample token builder. -/
def sampleToken (subject : String) : String := "token:" ++ subject

/-! ## Helper lemmas on the table-surgery primitives -/

theorem filter_updateFirst_of_not {α : Type} {p q : α → Bool} {f : α → α}
    (h : ∀ x, p x = true → q x = false ∧ q (f x) = false) (xs : List α) :
    (updateFirst p f xs).filter q = xs.filter q := by
  induction xs with
  | nil => rfl
  | cons x xs ih =>
    cases hp : p x with
    | false => simp [updateFirst, hp, List.filter_cons, ih]
    | true =>
      obtain ⟨h1, h2⟩ := h x hp
      simp [updateFirst, hp, List.filter_cons, h1, h2]

theorem any_updateFirst_congr {α : Type} {p q : α → Bool} {f : α → α}
    (h : ∀ x, q (f x) = q x) (xs : List α) :
    (updateFirst p f xs).any q = xs.any q := by
  induction xs with
  | nil => rfl
  | cons x xs ih =>
    cases hp : p x with
    | false => simp [updateFirst, hp, ih]
    | true => simp [updateFirst, hp, h x]

theorem filter_eraseFirst_of_not {α : Type} {p q : α → Bool}
    (h : ∀ x, p x = true → q x = false) (xs : List α) :
    (eraseFirst p xs).filter q = xs.filter q := by
  induction xs with
  | nil => rfl
  | cons x xs ih =>
    cases hp : p x with
    | false => simp [eraseFirst, hp, List.filter_cons, ih]
    | true => simp [eraseFirst, hp, List.filter_cons, h x hp]

theorem any_eraseFirst_of_not {α : Type} {p q : α → Bool}
    (h : ∀ x, p x = true → q x = false) (xs : List α) :
    (eraseFirst p xs).any q = xs.any q := by
  induction xs with
  | nil => rfl
  | cons x xs ih =>
    cases hp : p x with
    | false => simp [eraseFirst, hp, ih]
    | true => simp [eraseFirst, hp, h x hp]

theorem filter_filter_of_imp {α : Type} {q r : α → Bool}
    (h : ∀ x, q x = true → r x = true) (xs : List α) :
    (xs.filter r).filter q = xs.filter q := by
  rw [List.filter_filter]
  refine List.filter_congr ?_
  intro x _
  cases hq : q x with
  | false => simp
  | true => simp [h x hq]

/-- Distinct primary keys make the row of a given `lists.id` unique. -/
theorem listrec_eq_of_same_id {ls : List ListRec}
    (hwf : (ls.map (·.id)).Nodup) {a b : ListRec}
    (ha : a ∈ ls) (hb : b ∈ ls) (hid : a.id = b.id) : a = b :=
  List.inj_on_of_nodup_map hwf ha hb hid

/-- If the fused lookup found a list of user `uid`, then — ids being
distinct — an item filed under that list id is owned by no other user. -/
theorem ownsItem_eq_false_of_find {db : DB} {uid lid : Nat} {l0 : ListRec}
    (hwf : WF db)
    (hfind : db.lists.find? (fun l => l.id == lid && l.user_id == uid) = some l0)
    {uidB : Nat} (hne : uid ≠ uidB) {i : ItemRec} (hi : i.list_id = lid) :
    ownsItem db.lists uidB i = false := by
  have hl0 := List.find?_some hfind
  have hmem := List.mem_of_find?_eq_some hfind
  simp only [Bool.and_eq_true, beq_iff_eq] at hl0
  obtain ⟨hid0, huid0⟩ := hl0
  unfold ownsItem
  rw [List.any_eq_false]
  intro lb hlb
  simp only [Bool.and_eq_true, beq_iff_eq, not_and]
  intro hbid
  have hlb0 : lb = l0 :=
    listrec_eq_of_same_id hwf hlb hmem (by rw [hbid, hi, hid0])
  rw [hlb0, huid0]
  exact hne

/-- Appending a list owned by someone else changes no other user's item
ownership. -/
theorem ownsItem_append_other {ls : List ListRec} {l : ListRec} {uidB : Nat}
    (h : l.user_id ≠ uidB) (i : ItemRec) :
    ownsItem (ls ++ [l]) uidB i = ownsItem ls uidB i := by
  unfold ownsItem
  rw [List.any_append]
  have : (l.id == i.list_id && l.user_id == uidB) = false := by
    have : (l.user_id == uidB) = false := by simp [h]
    simp [this]
  simp [this]

/-- An item owned by another user is not filed under the list the caller's
fused lookup found. -/
theorem ownsItem_ne_deleted {db : DB} {uid lid : Nat} {l0 : ListRec}
    (hwf : WF db)
    (hfind : db.lists.find? (fun l => l.id == lid && l.user_id == uid) = some l0)
    {uidB : Nat} (hne : uid ≠ uidB) {i : ItemRec}
    (h : ownsItem db.lists uidB i = true) : (!(i.list_id == l0.id)) = true := by
  have hl0 := List.find?_some hfind
  have hl0mem := List.mem_of_find?_eq_some hfind
  simp only [Bool.and_eq_true, beq_iff_eq] at hl0
  obtain ⟨hid0, huid0⟩ := hl0
  unfold ownsItem at h
  rw [List.any_eq_true] at h
  obtain ⟨lb, hlbmem, hlb⟩ := h
  simp only [Bool.and_eq_true, beq_iff_eq] at hlb
  obtain ⟨hlbid, hlbuid⟩ := hlb
  simp only [Bool.not_eq_true', beq_eq_false_iff_ne, ne_eq]
  intro hil
  have : lb = l0 := listrec_eq_of_same_id hwf hlbmem hl0mem (by rw [hlbid, hil])
  rw [this] at hlbuid
  rw [huid0] at hlbuid
  exact hne hlbuid

/-- A success of `verify_user_access` forces the path id to be the
caller's. -/
theorem verify_user_access_ok_iff {u : UserRec} {uid : Nat} :
    verify_user_access u uid = .ok () ↔ u.id = uid := by
  unfold verify_user_access
  by_cases h : u.id = uid <;> simp [h]

theorem verify_user_access_self {u : UserRec} {uid : Nat} (h : u.id = uid) :
    verify_user_access u uid = .ok () :=
  verify_user_access_ok_iff.mpr h

theorem verify_user_access_forbidden {u : UserRec} {uid : Nat}
    (h : u.id ≠ uid) :
    verify_user_access u uid =
      .error ⟨403, "Not enough permissions to access this resource"⟩ := by
  unfold verify_user_access
  simp [h]

theorem mem_updateFirst {α : Type} {p : α → Bool} {f : α → α}
    {xs : List α} {y : α} (h : y ∈ updateFirst p f xs) :
    y ∈ xs ∨ ∃ x, x ∈ xs ∧ y = f x := by
  induction xs with
  | nil => simp [updateFirst] at h
  | cons x xs ih =>
    cases hp : p x with
    | true =>
      rw [updateFirst, if_pos hp] at h
      rcases List.mem_cons.mp h with h1 | h1
      · exact .inr ⟨x, by simp, h1⟩
      · exact .inl (by simp [h1])
    | false =>
      rw [updateFirst, if_neg (by simp [hp])] at h
      rcases List.mem_cons.mp h with h1 | h1
      · exact .inl (by simp [h1])
      · rcases ih h1 with h2 | ⟨x', hx', hy⟩
        · exact .inl (by simp [h2])
        · exact .inr ⟨x', by simp [hx'], hy⟩

theorem mem_eraseFirst {α : Type} {p : α → Bool} {xs : List α} {y : α}
    (h : y ∈ eraseFirst p xs) : y ∈ xs := by
  induction xs with
  | nil => simp [eraseFirst] at h
  | cons x xs ih =>
    cases hp : p x with
    | true =>
      rw [eraseFirst, if_pos hp] at h
      exact List.mem_cons_of_mem x h
    | false =>
      rw [eraseFirst, if_neg (by simp [hp])] at h
      rcases List.mem_cons.mp h with h1 | h1
      · simp [h1]
      · exact List.mem_cons_of_mem x (ih h1)

/-- Removing the first match removes the row itself when it is the only
match of a duplicate-free table. -/
theorem not_mem_eraseFirst_unique {α : Type} {p : α → Bool} {xs : List α}
    (hnd : xs.Nodup) {x0 : α} (hx0 : x0 ∈ xs) (hp : p x0 = true)
    (huniq : ∀ x ∈ xs, p x = true → x = x0) :
    x0 ∉ eraseFirst p xs := by
  induction xs with
  | nil => simp at hx0
  | cons a xs ih =>
    cases ha : p a with
    | true =>
      have hax : a = x0 := huniq a (by simp) ha
      subst hax
      rw [eraseFirst, if_pos ha]
      exact (List.nodup_cons.mp hnd).1
    | false =>
      rw [eraseFirst, if_neg (by simp [ha])]
      have hxx : x0 ∈ xs := by
        rcases List.mem_cons.mp hx0 with h1 | h1
        · rw [h1] at hp; rw [hp] at ha; exact absurd ha (by simp)
        · exact h1
      intro hmem
      rcases List.mem_cons.mp hmem with h1 | h1
      · rw [h1] at hp; rw [hp] at ha; exact absurd ha (by simp)
      · exact ih (List.nodup_cons.mp hnd).2 hxx
          (fun x hx hpx => huniq x (List.mem_cons_of_mem a hx) hpx) h1

/-- When the update preserves the lookup key, looking the row up again
after the update finds the updated row. -/
theorem find?_updateFirst {α : Type} {p : α → Bool} {f : α → α}
    (hpf : ∀ x, p (f x) = p x) (xs : List α) :
    (updateFirst p f xs).find? p = (xs.find? p).map f := by
  induction xs with
  | nil => rfl
  | cons x xs ih =>
    cases hp : p x with
    | true =>
      rw [updateFirst, if_pos hp]
      rw [List.find?_cons_of_pos _ (by rw [hpf, hp]),
        List.find?_cons_of_pos _ hp]
      rfl
    | false =>
      rw [updateFirst, if_neg (by simp [hp])]
      rw [List.find?_cons_of_neg _ (by simp [hp]),
        List.find?_cons_of_neg _ (by simp [hp])]
      exact ih

/-- The record found by `verify_list_access` carries the requested list id
and the caller as owner. -/
theorem verify_list_access_ok {u : UserRec} {lid : Nat} {db : DB}
    {l0 : ListRec} (h : verify_list_access u lid db = .ok l0) :
    db.lists.find? (fun l => l.id == lid && l.user_id == u.id) = some l0 := by
  unfold verify_list_access at h
  cases hf : db.lists.find? (fun l => l.id == lid && l.user_id == u.id) with
  | none => rw [hf] at h; exact absurd h (by simp)
  | some l => rw [hf] at h; simp at h; rw [h]

/-! ## Unfolding lemmas for the route handlers -/

theorem get_user_lists_ok {uid : Nat} {u : UserRec} (db : DB)
    (hu : u.id = uid) :
    get_user_lists uid u db = .ok (db.lists.filter (fun l => l.user_id == uid)) := by
  unfold get_user_lists
  rw [verify_user_access_self hu]

theorem get_user_lists_forbidden {uid : Nat} {u : UserRec} (db : DB)
    (hu : u.id ≠ uid) :
    get_user_lists uid u db =
      .error ⟨403, "Not enough permissions to access this resource"⟩ := by
  unfold get_user_lists
  rw [verify_user_access_forbidden hu]

theorem create_list_ok {uid : Nat} {u : UserRec} (d : ListCreate) (db : DB)
    (hu : u.id = uid) :
    create_list uid d u db =
      .ok (⟨freshId (db.lists.map (·.id)), uid, d.name, d.description⟩,
        { db with lists :=
          db.lists ++ [⟨freshId (db.lists.map (·.id)), uid, d.name, d.description⟩] }) := by
  unfold create_list
  rw [verify_user_access_self hu]

theorem create_list_forbidden {uid : Nat} {u : UserRec} (d : ListCreate)
    (db : DB) (hu : u.id ≠ uid) :
    create_list uid d u db =
      .error ⟨403, "Not enough permissions to access this resource"⟩ := by
  unfold create_list
  rw [verify_user_access_forbidden hu]

theorem get_list_ok {uid lid : Nat} {u : UserRec} {db : DB} {l0 : ListRec}
    (hu : u.id = uid)
    (hf : db.lists.find? (fun l => l.id == lid && l.user_id == uid) = some l0) :
    get_list uid lid u db = .ok l0 := by
  unfold get_list
  rw [verify_user_access_self hu, hf]

theorem get_list_forbidden {uid lid : Nat} {u : UserRec} (db : DB)
    (hu : u.id ≠ uid) :
    get_list uid lid u db =
      .error ⟨403, "Not enough permissions to access this resource"⟩ := by
  unfold get_list
  rw [verify_user_access_forbidden hu]

theorem update_list_ok {uid lid : Nat} {d : ListUpdate} {u : UserRec}
    {db : DB} {l0 : ListRec} (hu : u.id = uid)
    (hf : db.lists.find? (fun l => l.id == lid && l.user_id == uid) = some l0) :
    update_list uid lid d u db =
      .ok (applyListUpdate d l0,
        { db with lists := updateFirst (fun l => l.id == lid && l.user_id == uid) (applyListUpdate d) db.lists }) := by
  unfold update_list
  rw [verify_user_access_self hu, hf]

theorem get_list_notFound {uid lid : Nat} {u : UserRec} {db : DB}
    (hu : u.id = uid)
    (hf : db.lists.find? (fun l => l.id == lid && l.user_id == uid) = none) :
    get_list uid lid u db = .error ⟨404, "List not found"⟩ := by
  unfold get_list
  rw [verify_user_access_self hu, hf]

theorem update_list_notFound {uid lid : Nat} {d : ListUpdate} {u : UserRec}
    {db : DB} (hu : u.id = uid)
    (hf : db.lists.find? (fun l => l.id == lid && l.user_id == uid) = none) :
    update_list uid lid d u db = .error ⟨404, "List not found"⟩ := by
  unfold update_list
  rw [verify_user_access_self hu, hf]

theorem delete_list_notFound {uid lid : Nat} {u : UserRec} {db : DB}
    (hu : u.id = uid)
    (hf : db.lists.find? (fun l => l.id == lid && l.user_id == uid) = none) :
    delete_list uid lid u db = .error ⟨404, "List not found"⟩ := by
  unfold delete_list
  rw [verify_user_access_self hu, hf]

theorem update_list_forbidden {uid lid : Nat} {d : ListUpdate} {u : UserRec}
    (db : DB) (hu : u.id ≠ uid) :
    update_list uid lid d u db =
      .error ⟨403, "Not enough permissions to access this resource"⟩ := by
  unfold update_list
  rw [verify_user_access_forbidden hu]

theorem delete_list_ok {uid lid : Nat} {u : UserRec} {db : DB}
    {l0 : ListRec} (hu : u.id = uid)
    (hf : db.lists.find? (fun l => l.id == lid && l.user_id == uid) = some l0) :
    delete_list uid lid u db =
      .ok ((),
        { db with
          lists := eraseFirst (fun l => l.id == lid && l.user_id == uid) db.lists
          items := db.items.filter (fun i => !(i.list_id == l0.id)) }) := by
  unfold delete_list
  rw [verify_user_access_self hu, hf]

theorem delete_list_forbidden {uid lid : Nat} {u : UserRec} (db : DB)
    (hu : u.id ≠ uid) :
    delete_list uid lid u db =
      .error ⟨403, "Not enough permissions to access this resource"⟩ := by
  unfold delete_list
  rw [verify_user_access_forbidden hu]

theorem verify_list_access_of_find {u : UserRec} {lid : Nat} {db : DB}
    {l0 : ListRec}
    (hf : db.lists.find? (fun l => l.id == lid && l.user_id == u.id) = some l0) :
    verify_list_access u lid db = .ok l0 := by
  unfold verify_list_access
  rw [hf]

theorem verify_list_access_notFound {u : UserRec} {lid : Nat} {db : DB}
    (hf : db.lists.find? (fun l => l.id == lid && l.user_id == u.id) = none) :
    verify_list_access u lid db = .error ⟨404, "List not found"⟩ := by
  unfold verify_list_access
  rw [hf]

theorem get_list_items_ok {lid : Nat} {u : UserRec} {db : DB} {l0 : ListRec}
    (hv : verify_list_access u lid db = .ok l0) :
    get_list_items lid u db = .ok (db.items.filter (fun i => i.list_id == lid)) := by
  unfold get_list_items
  rw [hv]

theorem get_list_items_err {lid : Nat} {u : UserRec} {db : DB}
    {e : HTTPException} (hv : verify_list_access u lid db = .error e) :
    get_list_items lid u db = .error e := by
  unfold get_list_items
  rw [hv]

theorem create_list_item_ok {lid : Nat} {d : ListItemCreate} {u : UserRec}
    {db : DB} {l0 : ListRec} (hv : verify_list_access u lid db = .ok l0) :
    create_list_item lid d u db =
      .ok (⟨freshId (db.items.map (·.id)), lid, d.content, d.is_completed⟩,
        { db with items :=
          db.items ++ [⟨freshId (db.items.map (·.id)), lid, d.content, d.is_completed⟩] }) := by
  unfold create_list_item
  rw [hv]

theorem create_list_item_err {lid : Nat} {d : ListItemCreate} {u : UserRec}
    {db : DB} {e : HTTPException}
    (hv : verify_list_access u lid db = .error e) :
    create_list_item lid d u db = .error e := by
  unfold create_list_item
  rw [hv]

theorem update_list_item_ok {lid iid : Nat} {d : ListItemUpdate}
    {u : UserRec} {db : DB} {l0 : ListRec} {i0 : ItemRec}
    (hv : verify_list_access u lid db = .ok l0)
    (hf : db.items.find? (fun i => i.id == iid && i.list_id == lid) = some i0) :
    update_list_item lid iid d u db =
      .ok (applyItemUpdate d i0,
        { db with items := updateFirst (fun i => i.id == iid && i.list_id == lid) (applyItemUpdate d) db.items }) := by
  unfold update_list_item
  rw [hv, hf]

theorem update_list_item_err {lid iid : Nat} {d : ListItemUpdate}
    {u : UserRec} {db : DB} {e : HTTPException}
    (hv : verify_list_access u lid db = .error e) :
    update_list_item lid iid d u db = .error e := by
  unfold update_list_item
  rw [hv]

theorem update_list_item_notFound {lid iid : Nat} {d : ListItemUpdate}
    {u : UserRec} {db : DB} {l0 : ListRec}
    (hv : verify_list_access u lid db = .ok l0)
    (hf : db.items.find? (fun i => i.id == iid && i.list_id == lid) = none) :
    update_list_item lid iid d u db = .error ⟨404, "Item not found"⟩ := by
  unfold update_list_item
  rw [hv, hf]

theorem delete_list_item_ok {lid iid : Nat} {u : UserRec} {db : DB}
    {l0 : ListRec} {i0 : ItemRec}
    (hv : verify_list_access u lid db = .ok l0)
    (hf : db.items.find? (fun i => i.id == iid && i.list_id == lid) = some i0) :
    delete_list_item lid iid u db =
      .ok ((),
        { db with items := eraseFirst (fun i => i.id == iid && i.list_id == lid) db.items }) := by
  unfold delete_list_item
  rw [hv, hf]

theorem delete_list_item_err {lid iid : Nat} {u : UserRec} {db : DB}
    {e : HTTPException} (hv : verify_list_access u lid db = .error e) :
    delete_list_item lid iid u db = .error e := by
  unfold delete_list_item
  rw [hv]

theorem delete_list_item_notFound {lid iid : Nat} {u : UserRec} {db : DB}
    {l0 : ListRec} (hv : verify_list_access u lid db = .ok l0)
    (hf : db.items.find? (fun i => i.id == iid && i.list_id == lid) = none) :
    delete_list_item lid iid u db = .error ⟨404, "Item not found"⟩ := by
  unfold delete_list_item
  rw [hv, hf]

theorem toggle_item_completion_ok {lid iid : Nat} {u : UserRec} {db : DB}
    {l0 : ListRec} {i0 : ItemRec}
    (hv : verify_list_access u lid db = .ok l0)
    (hf : db.items.find? (fun i => i.id == iid && i.list_id == lid) = some i0) :
    toggle_item_completion lid iid u db =
      .ok ({ i0 with is_completed := toggleCompleted i0.is_completed },
        { db with items := updateFirst (fun i => i.id == iid && i.list_id == lid) (fun i => { i with is_completed := toggleCompleted i.is_completed }) db.items }) := by
  unfold toggle_item_completion
  rw [hv, hf]

theorem toggle_item_completion_err {lid iid : Nat} {u : UserRec} {db : DB}
    {e : HTTPException} (hv : verify_list_access u lid db = .error e) :
    toggle_item_completion lid iid u db = .error e := by
  unfold toggle_item_completion
  rw [hv]

theorem toggle_item_completion_notFound {lid iid : Nat} {u : UserRec}
    {db : DB} {l0 : ListRec} (hv : verify_list_access u lid db = .ok l0)
    (hf : db.items.find? (fun i => i.id == iid && i.list_id == lid) = none) :
    toggle_item_completion lid iid u db = .error ⟨404, "Item not found"⟩ := by
  unfold toggle_item_completion
  rw [hv, hf]

/-! ## Claims -/

/-- C10: for every item the toggle route finds, it writes `is_completed = 1`
exactly when the stored value was 0, and 0 for every other stored value;
hence immediately after any successful toggle the stored and returned
value is 0 or 1, even if it was out of range before. -/
theorem c10_toggle_normalizes (list_id item_id : Nat) (u : UserRec)
    (db : DB) (l0 : ListRec) (i0 : ItemRec)
    (hv : verify_list_access u list_id db = .ok l0)
    (hf : db.items.find? (fun i => i.id == item_id && i.list_id == list_id) = some i0) :
    toggle_item_completion list_id item_id u db =
      .ok ({ i0 with is_completed := toggleCompleted i0.is_completed },
        { db with items := updateFirst (fun i => i.id == item_id && i.list_id == list_id) (fun i => { i with is_completed := toggleCompleted i.is_completed }) db.items })
    ∧ (toggleCompleted i0.is_completed = 1 ↔ i0.is_completed = 0)
    ∧ (toggleCompleted i0.is_completed = 0 ∨ toggleCompleted i0.is_completed = 1) := by
  refine ⟨toggle_item_completion_ok hv hf, ?_, ?_⟩
  · unfold toggleCompleted
    by_cases h0 : i0.is_completed = 0 <;> simp [h0]
  · unfold toggleCompleted
    by_cases h0 : i0.is_completed = 0 <;> simp [h0]

/-- Witness for C10 at a concrete store: toggling item 100 of list 10. -/
theorem c10_toggle_normalizes_witness :
    toggle_item_completion 10 100 userA sampleDB =
      .ok ({ (⟨100, 10, "milk", 0⟩ : ItemRec) with is_completed := toggleCompleted (0 : Int) },
        { sampleDB with items := updateFirst (fun i => i.id == 100 && i.list_id == 10) (fun i => { i with is_completed := toggleCompleted i.is_completed }) sampleDB.items })
    ∧ (toggleCompleted (0 : Int) = 1 ↔ (0 : Int) = 0)
    ∧ (toggleCompleted (0 : Int) = 0 ∨ toggleCompleted (0 : Int) = 1) :=
  c10_toggle_normalizes 10 100 userA sampleDB ⟨10, 1, "groceries", none⟩
    ⟨100, 10, "milk", 0⟩ (by rfl) (by rfl)

/-- C4 counterexample: the claim quantifies over any stored completed
value, but on an item whose stored value is 2 two toggles end at 1, not at
the original value. -/
theorem c4_counterexample :
    toggle_item_completion 10 100 userA outOfRangeDB =
      .ok (⟨100, 10, "milk", 0⟩,
        { outOfRangeDB with items := [⟨100, 10, "milk", 0⟩] })
    ∧ toggle_item_completion 10 100 userA
        { outOfRangeDB with items := [⟨100, 10, "milk", 0⟩] } =
      .ok (⟨100, 10, "milk", 1⟩,
        { outOfRangeDB with items := [⟨100, 10, "milk", 1⟩] })
    ∧ (1 : Int) ≠ 2 := by
  refine ⟨by rfl, by rfl, by decide⟩

/-- C4 (amended): on an item whose stored `is_completed` is 0 or 1 — the
only values the API itself ever writes — the toggle route is an involution:
one toggle flips 0 to 1 and 1 to 0 (so it is not idempotent), and a second
toggle restores the original value.  For a stored value outside 0/1 the
double toggle ends at 1 instead (see the counterexample). -/
theorem c4_toggle_involution (list_id item_id : Nat) (u : UserRec)
    (db db1 db2 : DB) (l0 : ListRec) (i0 i1 i2 : ItemRec)
    (hv : verify_list_access u list_id db = .ok l0)
    (hf : db.items.find? (fun i => i.id == item_id && i.list_id == list_id) = some i0)
    (hrange : i0.is_completed = 0 ∨ i0.is_completed = 1)
    (h1 : toggle_item_completion list_id item_id u db = .ok (i1, db1))
    (h2 : toggle_item_completion list_id item_id u db1 = .ok (i2, db2)) :
    i1.is_completed = (if i0.is_completed = 0 then 1 else 0)
    ∧ i1.is_completed ≠ i0.is_completed
    ∧ i2.is_completed = i0.is_completed := by
  rw [toggle_item_completion_ok hv hf] at h1
  injection h1 with h1
  have hi1 := congrArg Prod.fst h1
  have hdb1 := congrArg Prod.snd h1
  simp only at hi1 hdb1
  subst hdb1
  have hv1 : verify_list_access u list_id
      { db with items := updateFirst (fun i => i.id == item_id && i.list_id == list_id) (fun i => { i with is_completed := toggleCompleted i.is_completed }) db.items } = .ok l0 := hv
  have hf1 : ({ db with items := updateFirst (fun i => i.id == item_id && i.list_id == list_id) (fun i => { i with is_completed := toggleCompleted i.is_completed }) db.items } : DB).items.find?
      (fun i => i.id == item_id && i.list_id == list_id) =
      some { i0 with is_completed := toggleCompleted i0.is_completed } := by
    show (updateFirst (fun i => i.id == item_id && i.list_id == list_id) (fun i => { i with is_completed := toggleCompleted i.is_completed }) db.items).find? (fun i => i.id == item_id && i.list_id == list_id) = _
    rw [@find?_updateFirst ItemRec (fun i => i.id == item_id && i.list_id == list_id)
      (fun i => { i with is_completed := toggleCompleted i.is_completed }) (fun x => rfl) db.items, hf]
    rfl
  rw [toggle_item_completion_ok hv1 hf1] at h2
  injection h2 with h2
  have hi2 := congrArg Prod.fst h2
  simp only at hi2
  refine ⟨?_, ?_, ?_⟩
  · rw [← hi1]
    show toggleCompleted i0.is_completed = _
    unfold toggleCompleted
    by_cases h0 : i0.is_completed = 0 <;> simp [h0]
  · rw [← hi1]
    show toggleCompleted i0.is_completed ≠ i0.is_completed
    unfold toggleCompleted
    rcases hrange with h0 | h0 <;> rw [h0] <;> decide
  · rw [← hi2]
    show toggleCompleted (toggleCompleted i0.is_completed) = i0.is_completed
    unfold toggleCompleted
    rcases hrange with h0 | h0 <;> rw [h0] <;> decide

/-- Witness for the amended C4 at a concrete store: item 100 of list 10,
stored value 0, toggled twice. -/
theorem c4_toggle_involution_witness :
    (1 : Int) = (if (0 : Int) = 0 then 1 else 0)
    ∧ (1 : Int) ≠ (0 : Int)
    ∧ (0 : Int) = (0 : Int) :=
  c4_toggle_involution 10 100 userA sampleDB
    { sampleDB with items := [⟨100, 10, "milk", 1⟩, ⟨200, 20, "sweep", 1⟩] }
    { sampleDB with items := [⟨100, 10, "milk", 0⟩, ⟨200, 20, "sweep", 1⟩] }
    ⟨10, 1, "groceries", none⟩
    ⟨100, 10, "milk", 0⟩ ⟨100, 10, "milk", 1⟩ ⟨100, 10, "milk", 0⟩
    (by rfl) (by rfl) (by decide) (by rfl) (by rfl)

/-- C7: `update_list` and `update_list_item` write only the supplied
fields: a field the request leaves at `None` keeps its prior value (it is
not nulled); in particular updating only `content` preserves the prior
`completed` value. -/
theorem c7_partial_update_frame (list_id item_id : Nat)
    (ld : ListUpdate) (di : ListItemUpdate) (u : UserRec) (db dbl dbi : DB)
    (l0 rl : ListRec) (i0 ri : ItemRec)
    (hfl : db.lists.find? (fun l => l.id == list_id && l.user_id == u.id) = some l0)
    (hfi : db.items.find? (fun i => i.id == item_id && i.list_id == list_id) = some i0)
    (hl : update_list u.id list_id ld u db = .ok (rl, dbl))
    (hi : update_list_item list_id item_id di u db = .ok (ri, dbi)) :
    ((ld.name = none → rl.name = l0.name)
      ∧ (ld.description = none → rl.description = l0.description))
    ∧ ((di.content = none → ri.content = i0.content)
      ∧ (di.is_completed = none → ri.is_completed = i0.is_completed)) := by
  rw [update_list_ok rfl hfl] at hl
  injection hl with hl
  have hrl := congrArg Prod.fst hl
  simp only at hrl
  rw [update_list_item_ok (verify_list_access_of_find hfl) hfi] at hi
  injection hi with hi
  have hri := congrArg Prod.fst hi
  simp only at hri
  refine ⟨⟨?_, ?_⟩, ⟨?_, ?_⟩⟩
  · intro hn
    rw [← hrl]
    show (match ld.name with | some n => n | none => l0.name) = l0.name
    rw [hn]
  · intro hd
    rw [← hrl]
    show (match ld.description with | some d => some d | none => l0.description) = l0.description
    rw [hd]
  · intro hc
    rw [← hri]
    show (match di.content with | some c => c | none => i0.content) = i0.content
    rw [hc]
  · intro hb
    rw [← hri]
    show (match di.is_completed with | some b => b | none => i0.is_completed) = i0.is_completed
    rw [hb]

/-- Witness for C7 at a concrete store: list 10 updated with only a
description, item 100 updated with only new content; name and completed
keep their prior values. -/
theorem c7_partial_update_frame_witness :
    (((⟨none, some "weekly"⟩ : ListUpdate).name = none →
        (⟨10, 1, "groceries", some "weekly"⟩ : ListRec).name = (⟨10, 1, "groceries", none⟩ : ListRec).name)
      ∧ ((⟨none, some "weekly"⟩ : ListUpdate).description = none →
        (⟨10, 1, "groceries", some "weekly"⟩ : ListRec).description = (⟨10, 1, "groceries", none⟩ : ListRec).description))
    ∧ (((⟨some "oat milk", none⟩ : ListItemUpdate).content = none →
        (⟨100, 10, "oat milk", 0⟩ : ItemRec).content = (⟨100, 10, "milk", 0⟩ : ItemRec).content)
      ∧ ((⟨some "oat milk", none⟩ : ListItemUpdate).is_completed = none →
        (⟨100, 10, "oat milk", 0⟩ : ItemRec).is_completed = (⟨100, 10, "milk", 0⟩ : ItemRec).is_completed)) :=
  c7_partial_update_frame 10 100 ⟨none, some "weekly"⟩ ⟨some "oat milk", none⟩
    userA sampleDB
    { sampleDB with lists := [⟨10, 1, "groceries", some "weekly"⟩, ⟨20, 2, "chores", none⟩] }
    { sampleDB with items := [⟨100, 10, "oat milk", 0⟩, ⟨200, 20, "sweep", 1⟩] }
    ⟨10, 1, "groceries", none⟩ ⟨10, 1, "groceries", some "weekly"⟩
    ⟨100, 10, "milk", 0⟩ ⟨100, 10, "oat milk", 0⟩
    (by rfl) (by rfl) (by rfl) (by rfl)

/-- C6: `update_list_item`, `delete_list_item` and `toggle_item_completion`
look the item up by the pair `(id, list_id)` after the list-ownership
check: when no item carries both the given item id and the given list id —
in particular when the item id exists only under a different list — the
operation fails with 404 "Item not found" and leaves the store unchanged. -/
theorem c6_item_lookup_fused (list_id item_id : Nat) (d : ListItemUpdate)
    (u : UserRec) (db : DB) (l0 : ListRec)
    (hv : verify_list_access u list_id db = .ok l0)
    (hmiss : ∀ i ∈ db.items, i.id = item_id → i.list_id ≠ list_id) :
    exec u (.updateItem list_id item_id d) db = (.error ⟨404, "Item not found"⟩, db)
    ∧ exec u (.deleteItem list_id item_id) db = (.error ⟨404, "Item not found"⟩, db)
    ∧ exec u (.toggleItem list_id item_id) db = (.error ⟨404, "Item not found"⟩, db) := by
  have hnone : db.items.find? (fun i => i.id == item_id && i.list_id == list_id) = none := by
    rw [List.find?_eq_none]
    intro i hi
    simp only [Bool.and_eq_true, beq_iff_eq, not_and]
    exact fun h1 => hmiss i hi h1
  refine ⟨?_, ?_, ?_⟩
  · simp [exec, update_list_item_notFound hv hnone]
  · simp [exec, delete_list_item_notFound hv hnone]
  · simp [exec, toggle_item_completion_notFound hv hnone]

/-- Witness for C6 at a concrete store: item 200 exists but belongs to
list 20, not to the addressed list 10. -/
theorem c6_item_lookup_fused_witness :
    exec userA (.updateItem 10 200 ⟨some "x", none⟩) sampleDB
      = (.error ⟨404, "Item not found"⟩, sampleDB)
    ∧ exec userA (.deleteItem 10 200) sampleDB
      = (.error ⟨404, "Item not found"⟩, sampleDB)
    ∧ exec userA (.toggleItem 10 200) sampleDB
      = (.error ⟨404, "Item not found"⟩, sampleDB) :=
  c6_item_lookup_fused 10 200 ⟨some "x", none⟩ userA sampleDB
    ⟨10, 1, "groceries", none⟩ (by rfl) (by decide)

/-- C5 counterexample: user 1 addresses list 20, owned by user 2, on the
list-items route; the route answers 404 Not Found, not 403 Forbidden. -/
theorem c5_counterexample :
    exec userA (.listItems 20) sampleDB = (.error ⟨404, "List not found"⟩, sampleDB)
    ∧ (404 : Nat) ≠ 403 :=
  ⟨rfl, by decide⟩

/-- C5 (amended): on the list-items routes (`/users/me/lists/...`), an
authenticated caller addressing a list owned by another user receives
404 Not Found, the owner mismatch being indistinguishable from a missing
list; the 403 Forbidden variant lives on the lists routes
(`/users/\x7buser_id\x7d/lists...`), raised when the path `user_id`
differs from the caller's id. -/
theorem c5_cross_user_notFound (list_id item_id uid : Nat)
    (dcreate : ListItemCreate) (dupdate : ListItemUpdate)
    (u : UserRec) (db : DB) (lB : ListRec)
    (hwf : WF db) (hmem : lB ∈ db.lists) (hid : lB.id = list_id)
    (howner : lB.user_id ≠ u.id) (huid : u.id ≠ uid) :
    get_list_items list_id u db = .error ⟨404, "List not found"⟩
    ∧ create_list_item list_id dcreate u db = .error ⟨404, "List not found"⟩
    ∧ update_list_item list_id item_id dupdate u db = .error ⟨404, "List not found"⟩
    ∧ delete_list_item list_id item_id u db = .error ⟨404, "List not found"⟩
    ∧ toggle_item_completion list_id item_id u db = .error ⟨404, "List not found"⟩
    ∧ get_user_lists uid u db =
        .error ⟨403, "Not enough permissions to access this resource"⟩ := by
  have hnone : db.lists.find? (fun l => l.id == list_id && l.user_id == u.id) = none := by
    rw [List.find?_eq_none]
    intro l hl
    simp only [Bool.and_eq_true, beq_iff_eq, not_and]
    intro h1
    have : l = lB := listrec_eq_of_same_id hwf hl hmem (by rw [h1, hid])
    rw [this]
    exact fun hco => howner hco
  have hv := verify_list_access_notFound hnone
  exact ⟨get_list_items_err hv, create_list_item_err hv, update_list_item_err hv,
    delete_list_item_err hv, toggle_item_completion_err hv,
    get_user_lists_forbidden db huid⟩

/-- Witness for the amended C5 at a concrete store: user 1 addressing
list 20 of user 2 on all five list-items routes, and the 403 of the lists
routes when the path user id is 2. -/
theorem c5_cross_user_notFound_witness :
    get_list_items 20 userA sampleDB = .error ⟨404, "List not found"⟩
    ∧ create_list_item 20 ⟨"x", 0⟩ userA sampleDB = .error ⟨404, "List not found"⟩
    ∧ update_list_item 20 200 ⟨some "x", none⟩ userA sampleDB = .error ⟨404, "List not found"⟩
    ∧ delete_list_item 20 200 userA sampleDB = .error ⟨404, "List not found"⟩
    ∧ toggle_item_completion 20 200 userA sampleDB = .error ⟨404, "List not found"⟩
    ∧ get_user_lists 2 userA sampleDB =
        .error ⟨403, "Not enough permissions to access this resource"⟩ :=
  c5_cross_user_notFound 20 200 2 ⟨"x", 0⟩ ⟨some "x", none⟩ userA sampleDB
    ⟨20, 2, "chores", none⟩ (by decide) (by decide) (by rfl) (by decide) (by decide)

/-- C8: `login` answers the one 401 "Incorrect username or password" both
when the username does not exist and when the password is wrong — the two
cases produce the identical error value — and answers the distinct 400
"Inactive user" exactly when the credentials check out but the matched
user's `is_active` flag is false; with correct credentials and an active
user it succeeds.  (`authenticate_user` is modelled from the spec, the
module holding it being absent from the snapshot.) -/
theorem c8_login_errors (verifyPw : String → String → Bool)
    (mkToken : String → String) (username password : String) (db : DB) :
    (db.users.find? (fun u => u.username == username) = none →
      login verifyPw mkToken username password db =
        .error ⟨401, "Incorrect username or password"⟩)
    ∧ (∀ u0, db.users.find? (fun u => u.username == username) = some u0 →
        verifyPw password u0.hashed_password = false →
        login verifyPw mkToken username password db =
          .error ⟨401, "Incorrect username or password"⟩)
    ∧ (∀ u0, db.users.find? (fun u => u.username == username) = some u0 →
        verifyPw password u0.hashed_password = true →
        u0.is_active = false →
        login verifyPw mkToken username password db =
          .error ⟨400, "Inactive user"⟩)
    ∧ (∀ u0, db.users.find? (fun u => u.username == username) = some u0 →
        verifyPw password u0.hashed_password = true →
        u0.is_active = true →
        login verifyPw mkToken username password db =
          .ok ⟨mkToken u0.username, "bearer"⟩) := by
  refine ⟨?_, ?_, ?_, ?_⟩
  · intro hnone
    unfold login authenticate_user
    rw [hnone]
  · intro u0 hsome hpw
    unfold login authenticate_user
    rw [hsome]
    simp [hpw]
  · intro u0 hsome hpw hact
    unfold login authenticate_user
    rw [hsome]
    simp [hpw, hact]
  · intro u0 hsome hpw hact
    unfold login authenticate_user
    rw [hsome]
    simp [hpw, hact]

/-- Witness for C8 at a concrete store: missing user and wrong password
yield the identical 401; the inactive user carl with correct credentials
yields the 400; alice with correct credentials gets a token. -/
theorem c8_login_errors_witness :
    login sampleVerify sampleToken "ghost" "pw1" sampleDB =
      .error ⟨401, "Incorrect username or password"⟩
    ∧ login sampleVerify sampleToken "alice" "bad" sampleDB =
      .error ⟨401, "Incorrect username or password"⟩
    ∧ login sampleVerify sampleToken "carl" "pw3" sampleDB =
      .error ⟨400, "Inactive user"⟩
    ∧ login sampleVerify sampleToken "alice" "pw1" sampleDB =
      .ok ⟨sampleToken "alice", "bearer"⟩ :=
  ⟨(c8_login_errors sampleVerify sampleToken "ghost" "pw1" sampleDB).1 (by rfl),
   (c8_login_errors sampleVerify sampleToken "alice" "bad" sampleDB).2.1 userA
     (by rfl) (by decide),
   (c8_login_errors sampleVerify sampleToken "carl" "pw3" sampleDB).2.2.1 userC
     (by rfl) (by decide) (by rfl),
   (c8_login_errors sampleVerify sampleToken "alice" "pw1" sampleDB).2.2.2 userA
     (by rfl) (by decide) (by rfl)⟩

/-- C9: `register` persists a new user exactly when no existing user has
the username and none has the email; a taken username (checked first) or
a taken email yields the 400 duplicate error and leaves the store
unchanged; on success the appended row carries the hashed password while
the response — a `UserResponse` — exposes only id, username, email and
the active flag, never the hash. -/
theorem c9_register (hashPw : String → String) (d : UserRegister) (db : DB) :
    ((∃ u0, u0 ∈ db.users ∧ u0.username = d.username) →
      registerStep hashPw d db = (.error ⟨400, "Username already registered"⟩, db))
    ∧ ((∀ u0 ∈ db.users, u0.username ≠ d.username) →
       (∃ u0, u0 ∈ db.users ∧ u0.email = d.email) →
      registerStep hashPw d db = (.error ⟨400, "Email already registered"⟩, db))
    ∧ ((∀ u0 ∈ db.users, u0.username ≠ d.username ∧ u0.email ≠ d.email) →
      registerStep hashPw d db =
        (.ok ⟨freshId (db.users.map (·.id)), d.username, d.email, true⟩,
         { db with users := db.users ++ [⟨freshId (db.users.map (·.id)), d.username, d.email, hashPw d.password, true⟩] })) := by
  refine ⟨?_, ?_, ?_⟩
  · rintro ⟨u0, hmem, huser⟩
    cases hf : db.users.find? (fun u => u.username == d.username) with
    | none =>
      rw [List.find?_eq_none] at hf
      exact absurd (by simp [huser] : (u0.username == d.username) = true)
        (by simpa using hf u0 hmem)
    | some u1 =>
      unfold registerStep register
      rw [hf]
  · rintro hnouser ⟨u0, hmem, hemail⟩
    have hf1 : db.users.find? (fun u => u.username == d.username) = none := by
      rw [List.find?_eq_none]
      intro u hu
      simpa using hnouser u hu
    cases hf2 : db.users.find? (fun u => u.email == d.email) with
    | none =>
      rw [List.find?_eq_none] at hf2
      exact absurd (by simp [hemail] : (u0.email == d.email) = true)
        (by simpa using hf2 u0 hmem)
    | some u1 =>
      unfold registerStep register
      rw [hf1, hf2]
  · intro hfree
    have hf1 : db.users.find? (fun u => u.username == d.username) = none := by
      rw [List.find?_eq_none]
      intro u hu
      simpa using (hfree u hu).1
    have hf2 : db.users.find? (fun u => u.email == d.email) = none := by
      rw [List.find?_eq_none]
      intro u hu
      simpa using (hfree u hu).2
    unfold registerStep register
    rw [hf1, hf2]
    rfl

/-- Witness for C9 at a concrete store: registering the taken username
"alice" fails, a fresh username with the taken email of alice fails, and
the fresh pair "dora"/"dora@example.com" persists user 4 whose response
carries no hash. -/
theorem c9_register_witness :
    registerStep sampleHash ⟨"alice", "x@example.com", "pw"⟩ sampleDB
      = (.error ⟨400, "Username already registered"⟩, sampleDB)
    ∧ registerStep sampleHash ⟨"dora", "alice@example.com", "pw"⟩ sampleDB
      = (.error ⟨400, "Email already registered"⟩, sampleDB)
    ∧ registerStep sampleHash ⟨"dora", "dora@example.com", "pw"⟩ sampleDB
      = (.ok ⟨4, "dora", "dora@example.com", true⟩,
         { sampleDB with users := sampleDB.users ++ [⟨4, "dora", "dora@example.com", sampleHash "pw", true⟩] }) :=
  ⟨(c9_register sampleHash ⟨"alice", "x@example.com", "pw"⟩ sampleDB).1
      ⟨userA, by decide, by decide⟩,
   (c9_register sampleHash ⟨"dora", "alice@example.com", "pw"⟩ sampleDB).2.1
      (by decide) ⟨userA, by decide, by decide⟩,
   (c9_register sampleHash ⟨"dora", "dora@example.com", "pw"⟩ sampleDB).2.2
      (by decide)⟩

/-- C3 counterexample: `create_list_item` stores the caller-supplied
`is_completed = 5` unvalidated, reaching a state whose item has a
completed value outside 0/1. -/
theorem c3_counterexample :
    create_list_item 10 ⟨"x", 5⟩ userA sampleDB
      = .ok (⟨201, 10, "x", 5⟩,
        { sampleDB with items := sampleDB.items ++ [⟨201, 10, "x", 5⟩] })
    ∧ ¬ ItemsInRange { sampleDB with items := sampleDB.items ++ [⟨201, 10, "x", 5⟩] } :=
  ⟨rfl, by
    intro h
    have := h ⟨201, 10, "x", 5⟩ (by decide)
    simp at this⟩

/-- C3 (amended): the range invariant `completed` in 0/1 is preserved by
`toggle_item_completion` unconditionally, but by `create_list_item` and
`update_list_item` only when the caller-supplied value lies in 0/1 — the
schemas impose no range check, so an out-of-range supplied value reaches
the store (see the counterexample). -/
theorem c3_range_preservation (list_id item_id : Nat) (u : UserRec)
    (db : DB) (dcreate : ListItemCreate) (dupdate : ListItemUpdate)
    (hdb : ItemsInRange db)
    (hc : dcreate.is_completed = 0 ∨ dcreate.is_completed = 1)
    (hup : ∀ v, dupdate.is_completed = some v → v = 0 ∨ v = 1) :
    (∀ r db', create_list_item list_id dcreate u db = .ok (r, db') →
      ItemsInRange db')
    ∧ (∀ r db', update_list_item list_id item_id dupdate u db = .ok (r, db') →
      ItemsInRange db')
    ∧ (∀ r db', toggle_item_completion list_id item_id u db = .ok (r, db') →
      ItemsInRange db') := by
  refine ⟨?_, ?_, ?_⟩
  · intro r db' h
    cases hv : verify_list_access u list_id db with
    | error e => rw [create_list_item_err hv] at h; exact absurd h (by simp)
    | ok l0 =>
      rw [create_list_item_ok hv] at h
      injection h with h
      have hdb' := congrArg Prod.snd h
      simp only at hdb'
      subst hdb'
      intro i hi
      rcases List.mem_append.mp hi with hi | hi
      · exact hdb i hi
      · rcases List.mem_singleton.mp hi with rfl
        exact hc
  · intro r db' h
    cases hv : verify_list_access u list_id db with
    | error e => rw [update_list_item_err hv] at h; exact absurd h (by simp)
    | ok l0 =>
      cases hf : db.items.find? (fun i => i.id == item_id && i.list_id == list_id) with
      | none =>
        rw [update_list_item_notFound hv hf] at h
        exact absurd h (by simp)
      | some i0 =>
        rw [update_list_item_ok hv hf] at h
        injection h with h
        have hdb' := congrArg Prod.snd h
        simp only at hdb'
        subst hdb'
        intro i hi
        rcases mem_updateFirst hi with hi | ⟨x, hx, rfl⟩
        · exact hdb i hi
        · show (applyItemUpdate dupdate x).is_completed = 0 ∨ _
          unfold applyItemUpdate
          cases hdu : dupdate.is_completed with
          | none => simpa using hdb x hx
          | some v => simpa using hup v hdu
  · intro r db' h
    cases hv : verify_list_access u list_id db with
    | error e => rw [toggle_item_completion_err hv] at h; exact absurd h (by simp)
    | ok l0 =>
      cases hf : db.items.find? (fun i => i.id == item_id && i.list_id == list_id) with
      | none =>
        rw [toggle_item_completion_notFound hv hf] at h
        exact absurd h (by simp)
      | some i0 =>
        rw [toggle_item_completion_ok hv hf] at h
        injection h with h
        have hdb' := congrArg Prod.snd h
        simp only at hdb'
        subst hdb'
        intro i hi
        rcases mem_updateFirst hi with hi | ⟨x, hx, rfl⟩
        · exact hdb i hi
        · show toggleCompleted x.is_completed = 0 ∨ toggleCompleted x.is_completed = 1
          unfold toggleCompleted
          by_cases h0 : x.is_completed = 0 <;> simp [h0]

/-- Witness for the amended C3 at a concrete store: an in-range create on
list 10 keeps every stored completed value in 0/1. -/
theorem c3_range_preservation_witness :
    ItemsInRange { sampleDB with items := sampleDB.items ++ [⟨201, 10, "eggs", 1⟩] } :=
  (c3_range_preservation 10 100 userA sampleDB ⟨"eggs", 1⟩ ⟨none, some 0⟩
      (by decide) (by decide) (by intro v hv; injection hv with hv; exact .inl hv.symm)).1
    ⟨201, 10, "eggs", 1⟩
    { sampleDB with items := sampleDB.items ++ [⟨201, 10, "eggs", 1⟩] }
    (by rfl)

/-- C2: for a list the caller owns, `delete_list` deletes the list row and
every item filed under its id in the one transition: in the single
post-state the count of items of that list id is 0, no list of that id
remains, and exactly the items of other lists survive — there is no state
with one effect and not the other. -/
theorem c2_cascade_delete (user_id list_id : Nat) (u : UserRec)
    (db db' : DB) (l0 : ListRec)
    (hwf : WF db) (hu : u.id = user_id)
    (hf : db.lists.find? (fun l => l.id == list_id && l.user_id == user_id) = some l0)
    (h : delete_list user_id list_id u db = .ok ((), db')) :
    (db'.items.filter (fun i => i.list_id == list_id)).length = 0
    ∧ db'.lists.find? (fun l => l.id == list_id) = none
    ∧ db'.items = db.items.filter (fun i => !(i.list_id == list_id)) := by
  have hl0 := List.find?_some hf
  simp only [Bool.and_eq_true, beq_iff_eq] at hl0
  obtain ⟨hl0id, hl0uid⟩ := hl0
  have hl0mem := List.mem_of_find?_eq_some hf
  rw [delete_list_ok hu hf] at h
  injection h with h
  have hdb' := congrArg Prod.snd h
  simp only at hdb'
  subst hdb'
  refine ⟨?_, ?_, ?_⟩
  · show ((db.items.filter (fun i => !(i.list_id == l0.id))).filter (fun i => i.list_id == list_id)).length = 0
    rw [List.filter_filter, List.length_eq_zero]
    rw [List.filter_eq_nil_iff]
    intro i _
    by_cases hx : i.list_id = list_id <;> simp [hx, hl0id]
  · show (eraseFirst (fun l => l.id == list_id && l.user_id == user_id) db.lists).find? (fun l => l.id == list_id) = none
    rw [List.find?_eq_none]
    intro l hl
    simp only [beq_iff_eq]
    intro hlid
    have hlmem : l ∈ db.lists := mem_eraseFirst hl
    have hleq : l = l0 := listrec_eq_of_same_id hwf hlmem hl0mem (by rw [hlid, hl0id])
    subst hleq
    exact not_mem_eraseFirst_unique (List.Nodup.of_map _ hwf) hlmem
      (by simp [hl0id, hl0uid])
      (fun x hx hpx => by
        simp only [Bool.and_eq_true, beq_iff_eq] at hpx
        exact listrec_eq_of_same_id hwf hx hl0mem (by rw [hpx.1, hl0id]))
      hl
  · show db.items.filter (fun i => !(i.list_id == l0.id)) = _
    simp only [hl0id]

/-- Witness for C2 at a concrete store: deleting list 10 of user 1 leaves
no item of list 10 and no list 10, in the one resulting store. -/
theorem c2_cascade_delete_witness :
    ((({ sampleDB with lists := [⟨20, 2, "chores", none⟩], items := [⟨200, 20, "sweep", 1⟩] } : DB).items.filter (fun i => i.list_id == 10)).length = 0)
    ∧ ({ sampleDB with lists := [⟨20, 2, "chores", none⟩], items := [⟨200, 20, "sweep", 1⟩] } : DB).lists.find? (fun l => l.id == 10) = none
    ∧ ({ sampleDB with lists := [⟨20, 2, "chores", none⟩], items := [⟨200, 20, "sweep", 1⟩] } : DB).items = sampleDB.items.filter (fun i => !(i.list_id == 10)) :=
  c2_cascade_delete 1 10 userA sampleDB
    { sampleDB with lists := [⟨20, 2, "chores", none⟩], items := [⟨200, 20, "sweep", 1⟩] }
    ⟨10, 1, "groceries", none⟩ (by decide) (by rfl) (by rfl) (by rfl)



/-- A failed route invocation carries no resource and leaves the store
untouched. -/
theorem exec_state_of_error (e : HTTPException) {A : UserRec} {Bid : Nat}
    {op : Op} {db : DB} (hexec : exec A op db = (.error e, db)) :
    execTouches A Bid op db = false
    ∧ listsOf (exec A op db).2 Bid = listsOf db Bid
    ∧ itemsOf (exec A op db).2 Bid = itemsOf db Bid := by
  refine ⟨?_, ?_, ?_⟩ <;> simp [execTouches, hexec]

/-- C1: for distinct users A and B, no list or item operation invoked by
A — whatever the path identifiers — ever returns a record owned by B, and
the one store it leaves behind holds B's lists and B's items unchanged
(ids of the `lists` table assumed distinct, as its primary key makes
them). -/
theorem c1_cross_user_isolation (A B : UserRec) (op : Op) (db : DB)
    (hwf : WF db) (hAB : A.id ≠ B.id) :
    execTouches A B.id op db = false
    ∧ listsOf (exec A op db).2 B.id = listsOf db B.id
    ∧ itemsOf (exec A op db).2 B.id = itemsOf db B.id := by
  cases op with
  | listLists uid =>
    by_cases hA : A.id = uid
    · subst hA
      have hexec : exec A (.listLists A.id) db =
          (.ok (.listsOut (db.lists.filter (fun l => l.user_id == A.id))), db) := by
        simp [exec, get_user_lists_ok db rfl]
      refine ⟨?_, by simp [hexec], by simp [hexec]⟩
      simp only [execTouches, hexec, outputTouches]
      rw [List.any_eq_false]
      intro l hl
      have h2 := (List.mem_filter.mp hl).2
      simp only [beq_iff_eq] at h2 ⊢
      rw [h2]
      exact hAB
    · exact exec_state_of_error ⟨403, "Not enough permissions to access this resource"⟩ (by simp [exec, get_user_lists_forbidden db hA])
  | createList uid d =>
    by_cases hA : A.id = uid
    · subst hA
      have hq : ((⟨freshId (db.lists.map (·.id)), A.id, d.name, d.description⟩ : ListRec).user_id == B.id) = false := by
        simp [hAB]
      have hexec : exec A (.createList A.id d) db =
          (.ok (.listOut ⟨freshId (db.lists.map (·.id)), A.id, d.name, d.description⟩),
           { db with lists := db.lists ++ [⟨freshId (db.lists.map (·.id)), A.id, d.name, d.description⟩] }) := by
        simp [exec, create_list_ok d db rfl]
      refine ⟨?_, ?_, ?_⟩
      · simp only [execTouches, hexec, outputTouches]
        exact hq
      · rw [hexec]
        show listsOf { db with lists := db.lists ++ [_] } B.id = listsOf db B.id
        unfold listsOf
        show (db.lists ++ [_]).filter _ = _
        rw [List.filter_append]
        simp [hq]
      · rw [hexec]
        show itemsOf { db with lists := db.lists ++ [_] } B.id = itemsOf db B.id
        unfold itemsOf
        refine List.filter_congr ?_
        intro i _
        exact ownsItem_append_other (by simpa using hAB) i
    · exact exec_state_of_error ⟨403, "Not enough permissions to access this resource"⟩ (by simp [exec, create_list_forbidden d db hA])
  | getList uid lid =>
    by_cases hA : A.id = uid
    · subst hA
      cases hf : db.lists.find? (fun l => l.id == lid && l.user_id == A.id) with
      | none =>
        exact exec_state_of_error ⟨404, "List not found"⟩ (by simp [exec, get_list_notFound rfl hf])
      | some l0 =>
        have hexec : exec A (.getList A.id lid) db = (.ok (.listOut l0), db) := by
          simp [exec, get_list_ok rfl hf]
        refine ⟨?_, by simp [hexec], by simp [hexec]⟩
        simp only [execTouches, hexec, outputTouches]
        have h2 := List.find?_some hf
        simp only [Bool.and_eq_true, beq_iff_eq] at h2
        simp [h2.2, hAB]
    · exact exec_state_of_error ⟨403, "Not enough permissions to access this resource"⟩ (by simp [exec, get_list_forbidden db hA])
  | updateList uid lid d =>
    by_cases hA : A.id = uid
    · subst hA
      cases hf : db.lists.find? (fun l => l.id == lid && l.user_id == A.id) with
      | none =>
        exact exec_state_of_error ⟨404, "List not found"⟩ (by simp [exec, update_list_notFound rfl hf])
      | some l0 =>
        have hexec : exec A (.updateList A.id lid d) db =
            (.ok (.listOut (applyListUpdate d l0)),
             { db with lists := updateFirst (fun l => l.id == lid && l.user_id == A.id) (applyListUpdate d) db.lists }) := by
          simp [exec, update_list_ok rfl hf]
        have h2 := List.find?_some hf
        simp only [Bool.and_eq_true, beq_iff_eq] at h2
        refine ⟨?_, ?_, ?_⟩
        · simp only [execTouches, hexec, outputTouches]
          show (l0.user_id == B.id) = false
          simp [h2.2, hAB]
        · rw [hexec]
          show listsOf { db with lists := _ } B.id = listsOf db B.id
          unfold listsOf
          show (updateFirst _ _ db.lists).filter _ = _
          refine filter_updateFirst_of_not ?_ db.lists
          intro x hx
          simp only [Bool.and_eq_true, beq_iff_eq] at hx
          constructor
          · simp [hx.2, hAB]
          · show ((applyListUpdate d x).user_id == B.id) = false
            have : (applyListUpdate d x).user_id = x.user_id := rfl
            rw [this]
            simp [hx.2, hAB]
        · rw [hexec]
          show itemsOf { db with lists := _ } B.id = itemsOf db B.id
          unfold itemsOf
          refine List.filter_congr ?_
          intro i _
          show ownsItem (updateFirst _ _ db.lists) B.id i = ownsItem db.lists B.id i
          unfold ownsItem
          exact @any_updateFirst_congr ListRec
            (fun l => l.id == lid && l.user_id == A.id)
            (fun l => l.id == i.list_id && l.user_id == B.id)
            (applyListUpdate d) (fun x => rfl) db.lists
    · exact exec_state_of_error ⟨403, "Not enough permissions to access this resource"⟩ (by simp [exec, update_list_forbidden db hA])
  | deleteList uid lid =>
    by_cases hA : A.id = uid
    · subst hA
      cases hf : db.lists.find? (fun l => l.id == lid && l.user_id == A.id) with
      | none =>
        exact exec_state_of_error ⟨404, "List not found"⟩ (by simp [exec, delete_list_notFound rfl hf])
      | some l0 =>
        have hexec : exec A (.deleteList A.id lid) db =
            (.ok .noContent,
             { db with
               lists := eraseFirst (fun l => l.id == lid && l.user_id == A.id) db.lists
               items := db.items.filter (fun i => !(i.list_id == l0.id)) }) := by
          simp [exec, delete_list_ok rfl hf]
        refine ⟨?_, ?_, ?_⟩
        · simp [execTouches, hexec, outputTouches]
        · rw [hexec]
          show listsOf { db with lists := _, items := _ } B.id = listsOf db B.id
          unfold listsOf
          show (eraseFirst _ db.lists).filter _ = _
          refine filter_eraseFirst_of_not ?_ db.lists
          intro x hx
          simp only [Bool.and_eq_true, beq_iff_eq] at hx
          simp [hx.2, hAB]
        · rw [hexec]
          show itemsOf { db with lists := _, items := _ } B.id = itemsOf db B.id
          unfold itemsOf
          show (db.items.filter _).filter (ownsItem (eraseFirst _ db.lists) B.id) = db.items.filter (ownsItem db.lists B.id)
          have step1 : ∀ i : ItemRec,
              ownsItem (eraseFirst (fun l => l.id == lid && l.user_id == A.id) db.lists) B.id i
                = ownsItem db.lists B.id i := by
            intro i
            unfold ownsItem
            refine any_eraseFirst_of_not ?_ db.lists
            intro x hx
            simp only [Bool.and_eq_true, beq_iff_eq] at hx
            simp [hx.2, hAB]
          rw [List.filter_congr (fun i _ => step1 i)]
          refine filter_filter_of_imp ?_ db.items
          intro i hi
          exact ownsItem_ne_deleted hwf hf hAB hi
    · exact exec_state_of_error ⟨403, "Not enough permissions to access this resource"⟩ (by simp [exec, delete_list_forbidden db hA])
  | listItems lid =>
    cases hv : verify_list_access A lid db with
    | error e =>
      have he : e = ⟨404, "List not found"⟩ := by
        unfold verify_list_access at hv
        cases hvf : db.lists.find? (fun l => l.id == lid && l.user_id == A.id) with
        | none => rw [hvf] at hv; injection hv with hv; exact hv.symm
        | some l1 => rw [hvf] at hv; exact absurd hv (by simp)
      exact exec_state_of_error e (by simp [exec, get_list_items_err hv])
    | ok l0 =>
      have hf := verify_list_access_ok hv
      have hexec : exec A (.listItems lid) db =
          (.ok (.itemsOut (db.items.filter (fun i => i.list_id == lid))), db) := by
        simp [exec, get_list_items_ok hv]
      refine ⟨?_, by simp [hexec], by simp [hexec]⟩
      simp only [execTouches, hexec, outputTouches]
      rw [List.any_eq_false]
      intro i hi
      have h2 := (List.mem_filter.mp hi).2
      simp only [beq_iff_eq] at h2
      rw [ownsItem_eq_false_of_find hwf hf hAB h2]
      simp
  | createItem lid d =>
    cases hv : verify_list_access A lid db with
    | error e =>
      exact exec_state_of_error e (by simp [exec, create_list_item_err hv])
    | ok l0 =>
      have hf := verify_list_access_ok hv
      have hexec : exec A (.createItem lid d) db =
          (.ok (.itemOut ⟨freshId (db.items.map (·.id)), lid, d.content, d.is_completed⟩),
           { db with items := db.items ++ [⟨freshId (db.items.map (·.id)), lid, d.content, d.is_completed⟩] }) := by
        simp [exec, create_list_item_ok hv]
      have hq : ownsItem db.lists B.id ⟨freshId (db.items.map (·.id)), lid, d.content, d.is_completed⟩ = false :=
        ownsItem_eq_false_of_find hwf hf hAB rfl
      refine ⟨?_, ?_, ?_⟩
      · simp only [execTouches, hexec, outputTouches]
        exact hq
      · rw [hexec]
        rfl
      · rw [hexec]
        show itemsOf { db with items := _ } B.id = itemsOf db B.id
        unfold itemsOf
        show (db.items ++ [_]).filter _ = _
        rw [List.filter_append]
        simp [hq]
  | updateItem lid iid d =>
    cases hv : verify_list_access A lid db with
    | error e =>
      exact exec_state_of_error e (by simp [exec, update_list_item_err hv])
    | ok l0 =>
      have hf := verify_list_access_ok hv
      cases hfi : db.items.find? (fun i => i.id == iid && i.list_id == lid) with
      | none =>
        exact exec_state_of_error ⟨404, "Item not found"⟩ (by simp [exec, update_list_item_notFound hv hfi])
      | some i0 =>
        have hexec : exec A (.updateItem lid iid d) db =
            (.ok (.itemOut (applyItemUpdate d i0)),
             { db with items := updateFirst (fun i => i.id == iid && i.list_id == lid) (applyItemUpdate d) db.items }) := by
          simp [exec, update_list_item_ok hv hfi]
        have h2 := List.find?_some hfi
        simp only [Bool.and_eq_true, beq_iff_eq] at h2
        refine ⟨?_, ?_, ?_⟩
        · simp only [execTouches, hexec, outputTouches]
          have : (applyItemUpdate d i0).list_id = lid := h2.2
          exact ownsItem_eq_false_of_find hwf hf hAB this
        · rw [hexec]
          rfl
        · rw [hexec]
          show itemsOf { db with items := _ } B.id = itemsOf db B.id
          unfold itemsOf
          show (updateFirst _ _ db.items).filter _ = _
          refine filter_updateFirst_of_not ?_ db.items
          intro x hx
          simp only [Bool.and_eq_true, beq_iff_eq] at hx
          constructor
          · exact ownsItem_eq_false_of_find hwf hf hAB hx.2
          · have : (applyItemUpdate d x).list_id = lid := hx.2
            exact ownsItem_eq_false_of_find hwf hf hAB this
  | deleteItem lid iid =>
    cases hv : verify_list_access A lid db with
    | error e =>
      exact exec_state_of_error e (by simp [exec, delete_list_item_err hv])
    | ok l0 =>
      have hf := verify_list_access_ok hv
      cases hfi : db.items.find? (fun i => i.id == iid && i.list_id == lid) with
      | none =>
        exact exec_state_of_error ⟨404, "Item not found"⟩ (by simp [exec, delete_list_item_notFound hv hfi])
      | some i0 =>
        have hexec : exec A (.deleteItem lid iid) db =
            (.ok .noContent,
             { db with items := eraseFirst (fun i => i.id == iid && i.list_id == lid) db.items }) := by
          simp [exec, delete_list_item_ok hv hfi]
        refine ⟨?_, ?_, ?_⟩
        · simp [execTouches, hexec, outputTouches]
        · rw [hexec]
          rfl
        · rw [hexec]
          show itemsOf { db with items := _ } B.id = itemsOf db B.id
          unfold itemsOf
          show (eraseFirst _ db.items).filter _ = _
          refine filter_eraseFirst_of_not ?_ db.items
          intro x hx
          simp only [Bool.and_eq_true, beq_iff_eq] at hx
          exact ownsItem_eq_false_of_find hwf hf hAB hx.2
  | toggleItem lid iid =>
    cases hv : verify_list_access A lid db with
    | error e =>
      exact exec_state_of_error e (by simp [exec, toggle_item_completion_err hv])
    | ok l0 =>
      have hf := verify_list_access_ok hv
      cases hfi : db.items.find? (fun i => i.id == iid && i.list_id == lid) with
      | none =>
        exact exec_state_of_error ⟨404, "Item not found"⟩ (by simp [exec, toggle_item_completion_notFound hv hfi])
      | some i0 =>
        have hexec : exec A (.toggleItem lid iid) db =
            (.ok (.itemOut { i0 with is_completed := toggleCompleted i0.is_completed }),
             { db with items := updateFirst (fun i => i.id == iid && i.list_id == lid) (fun i => { i with is_completed := toggleCompleted i.is_completed }) db.items }) := by
          simp [exec, toggle_item_completion_ok hv hfi]
        have h2 := List.find?_some hfi
        simp only [Bool.and_eq_true, beq_iff_eq] at h2
        refine ⟨?_, ?_, ?_⟩
        · simp only [execTouches, hexec, outputTouches]
          have : ({ i0 with is_completed := toggleCompleted i0.is_completed } : ItemRec).list_id = lid := h2.2
          exact ownsItem_eq_false_of_find hwf hf hAB this
        · rw [hexec]
          rfl
        · rw [hexec]
          show itemsOf { db with items := _ } B.id = itemsOf db B.id
          unfold itemsOf
          show (updateFirst _ _ db.items).filter _ = _
          refine filter_updateFirst_of_not ?_ db.items
          intro x hx
          simp only [Bool.and_eq_true, beq_iff_eq] at hx
          constructor
          · exact ownsItem_eq_false_of_find hwf hf hAB hx.2
          · have : ({ x with is_completed := toggleCompleted x.is_completed } : ItemRec).list_id = lid := hx.2
            exact ownsItem_eq_false_of_find hwf hf hAB this

/-- Witness for C1 at a concrete store: user 1 fetching list 10 touches
nothing of user 2. -/
theorem c1_cross_user_isolation_witness :
    execTouches userA userB.id (.getList 1 10) sampleDB = false
    ∧ listsOf (exec userA (.getList 1 10) sampleDB).2 userB.id = listsOf sampleDB userB.id
    ∧ itemsOf (exec userA (.getList 1 10) sampleDB).2 userB.id = itemsOf sampleDB userB.id :=
  c1_cross_user_isolation userA userB (.getList 1 10) sampleDB (by decide) (by decide)

end ListHandler
